import Mathlib

/-!
Verification of the ip-finder desktop utility (src/python/ip-finder/ip_finder.py)
against its natural-language specification.

The development shallowly embeds the program: parsed JSON values become an
inductive type, the Python standard-library routines the program relies on
(json.dumps with indent=2, json.loads, str.strip, urllib.parse.quote, str()
rendering, truthiness) are modelled faithfully from their semantics, and the
Tk controller state becomes an explicit record with pure transition functions
translated line by line from the source.  Raising Python code is embedded in
the Except monad.
-/

namespace IpFinder

/-- Parsed JSON values, as produced by json.loads in the source.  Numbers are
restricted to integers: the claims under verification never depend on
floating-point payload fields. -/
inductive Json where
  | null
  | bool (b : Bool)
  | num (n : Int)
  | str (s : String)
  | arr (elems : List Json)
  | obj (members : List (String × Json))

/-- The opening brace character. -/
def lbrace : Char := Char.ofNat 123

/-- The closing brace character. -/
def rbrace : Char := Char.ofNat 125

/-- Decimal digit character for a digit value below ten. -/
def digitChar : Nat → Char
  | 0 => '0' | 1 => '1' | 2 => '2' | 3 => '3' | 4 => '4'
  | 5 => '5' | 6 => '6' | 7 => '7' | 8 => '8' | _ => '9'

/-- Lower-case hexadecimal digit character for a value below sixteen. -/
def hexDig : Nat → Char
  | 0 => '0' | 1 => '1' | 2 => '2' | 3 => '3' | 4 => '4'
  | 5 => '5' | 6 => '6' | 7 => '7' | 8 => '8' | 9 => '9'
  | 10 => 'a' | 11 => 'b' | 12 => 'c' | 13 => 'd' | 14 => 'e' | _ => 'f'

/-- Hexadecimal digit value of a character, accepting both cases
(mirrors int(s, 16) on a single digit), computed from the character code. -/
def fromHex (c : Char) : Option Nat :=
  if 48 ≤ c.toNat ∧ c.toNat ≤ 57 then some (c.toNat - 48)
  else if 97 ≤ c.toNat ∧ c.toNat ≤ 102 then some (c.toNat - 87)
  else if 65 ≤ c.toNat ∧ c.toNat ≤ 70 then some (c.toNat - 55)
  else none

/-- Decimal representation of a natural number, most significant digit first
(the digits of int.__repr__). -/
def natChars (n : Nat) : List Char :=
  if _h : n < 10 then [digitChar n]
  else natChars (n / 10) ++ [digitChar (n % 10)]
decreasing_by exact Nat.div_lt_self (by omega) (by omega)

/-- Decimal representation of an integer (int.__repr__). -/
def intChars (n : Int) : List Char :=
  if n < 0 then '-' :: natChars n.natAbs else natChars n.natAbs

/-- Four lower-case hex digits, as emitted by the \u escapes of
json.encoder (the '%04x' format for code points below 0x10000). -/
def hex4 (n : Nat) : List Char :=
  [hexDig (n / 4096 % 16), hexDig (n / 256 % 16), hexDig (n / 16 % 16), hexDig (n % 16)]

/-- Characters escaped inside a JSON string literal by
json.encoder.py_encode_basestring_ascii (ensure_ascii=True, the default used
by the source): the quote, the backslash, and everything outside the
printable ASCII range. -/
def needsEsc (c : Char) : Prop :=
  c = '"' ∨ c = '\\' ∨ c.toNat < 32 ∨ 126 < c.toNat

instance (c : Char) : Decidable (needsEsc c) := by
  unfold needsEsc
  infer_instance

/-- The characters following the backslash in the escape of one character:
the short escapes, \uXXXX for other code points below 0x10000, and a
surrogate pair beyond. -/
def escBody (c : Char) : List Char :=
  if c = '"' then ['"']
  else if c = '\\' then ['\\']
  else if c = '\n' then ['n']
  else if c = '\r' then ['r']
  else if c = '\t' then ['t']
  else if c.toNat = 8 then ['b']
  else if c.toNat = 12 then ['f']
  else if c.toNat < 65536 then 'u' :: hex4 c.toNat
  else
    'u' :: (hex4 (55296 + (c.toNat - 65536) / 1024) ++
      '\\' :: 'u' :: hex4 (56320 + (c.toNat - 65536) % 1024))

/-- Escape of one character inside a JSON string literal. -/
def escCh (c : Char) : List Char :=
  if needsEsc c then '\\' :: escBody c else [c]

/-- Escapes of a list of characters, concatenated. -/
def escChars : List Char → List Char
  | [] => []
  | c :: cs => escCh c ++ escChars cs

/-- A JSON string literal: quote, escaped body, quote. -/
def encStr (s : String) : List Char :=
  '"' :: (escChars s.data ++ ['"'])

/-- The newline-plus-indentation separator used by json.dumps with indent=2
at a given nesting level. -/
def nlIndent (lvl : Nat) : List Char :=
  '\n' :: List.replicate (2 * lvl) ' '

mutual

/-- Serialized form of a JSON value as produced by json.dumps(v, indent=2)
(the call made by copy_json, on_success and format_result), at nesting
level lvl. -/
def dumpsV (lvl : Nat) : Json → List Char
  | .null => "null".data
  | .bool true => "true".data
  | .bool false => "false".data
  | .num n => intChars n
  | .str s => encStr s
  | .arr [] => ['[', ']']
  | .arr (x :: xs) =>
      '[' :: (nlIndent (lvl + 1) ++ dumpsV (lvl + 1) x ++ dumpsArr (lvl + 1) xs
        ++ nlIndent lvl ++ [']'])
  | .obj [] => [lbrace, rbrace]
  | .obj (kv :: kvs) =>
      lbrace :: (nlIndent (lvl + 1) ++ dumpsKV (lvl + 1) kv ++ dumpsObj (lvl + 1) kvs
        ++ nlIndent lvl ++ [rbrace])

/-- One key-value member: encoded key, the ": " key separator, value. -/
def dumpsKV (lvl : Nat) : String × Json → List Char
  | (k, v) => encStr k ++ ':' :: ' ' :: dumpsV lvl v

/-- Remaining array items, each preceded by the "," item separator and the
newline indentation. -/
def dumpsArr (lvl : Nat) : List Json → List Char
  | [] => []
  | x :: xs => ',' :: (nlIndent lvl ++ dumpsV lvl x ++ dumpsArr lvl xs)

/-- Remaining object members, each preceded by the "," item separator and the
newline indentation. -/
def dumpsObj (lvl : Nat) : List (String × Json) → List Char
  | [] => []
  | kv :: kvs => ',' :: (nlIndent lvl ++ dumpsKV lvl kv ++ dumpsObj lvl kvs)

end

/-- json.dumps(v, indent=2) as a string, the exact serialization used
throughout the source. -/
def dumps (j : Json) : String := String.mk (dumpsV 0 j)

/-- The single-quote character. -/
def squote : Char := Char.ofNat 39

/-- Escape of one character inside a Python repr string literal delimited by
quote character q. -/
def reprEsc (q c : Char) : List Char :=
  if c = '\\' then ['\\', '\\']
  else if c = q then ['\\', q]
  else if c = '\n' then ['\\', 'n']
  else if c = '\r' then ['\\', 'r']
  else if c = '\t' then ['\\', 't']
  else if c.toNat < 32 ∨ c.toNat = 127 then
    '\\' :: 'x' :: [hexDig (c.toNat / 16 % 16), hexDig (c.toNat % 16)]
  else [c]

/-- Escapes of a string body under a chosen repr quote character. -/
def reprEscs (q : Char) : List Char → List Char
  | [] => []
  | c :: cs => reprEsc q c ++ reprEscs q cs

/-- Python repr of a str: single-quoted, switching to double quotes when the
string contains a single quote but no double quote. -/
def reprStr (s : String) : List Char :=
  let q := if s.data.contains squote ∧ ¬ s.data.contains '"' then '"' else squote
  q :: (reprEscs q s.data ++ [q])

mutual

/-- Python repr of a value parsed from JSON (None, True, int, str, list and
dict renderings), used by str() on non-string values. -/
def pyReprV : Json → List Char
  | .null => ['N', 'o', 'n', 'e']
  | .bool true => ['T', 'r', 'u', 'e']
  | .bool false => ['F', 'a', 'l', 's', 'e']
  | .num n => intChars n
  | .str s => reprStr s
  | .arr [] => ['[', ']']
  | .arr (x :: xs) => '[' :: (pyReprV x ++ pyReprArr xs ++ [']'])
  | .obj [] => [lbrace, rbrace]
  | .obj (kv :: kvs) => lbrace :: (pyReprKV kv ++ pyReprObj kvs ++ [rbrace])

/-- One dict member under repr: repr of the key, ": ", repr of the value. -/
def pyReprKV : String × Json → List Char
  | (k, v) => reprStr k ++ ':' :: ' ' :: pyReprV v

/-- Remaining list items under repr, comma-space separated. -/
def pyReprArr : List Json → List Char
  | [] => []
  | x :: xs => ',' :: ' ' :: (pyReprV x ++ pyReprArr xs)

/-- Remaining dict members under repr, comma-space separated. -/
def pyReprObj : List (String × Json) → List Char
  | [] => []
  | kv :: kvs => ',' :: ' ' :: (pyReprKV kv ++ pyReprObj kvs)

end

/-- Python str() of a value parsed from JSON: the string itself for str,
repr for everything else; this is what an f-string interpolation applies. -/
def pyStr : Json → String
  | .str s => s
  | j => String.mk (pyReprV j)

/-- Python truthiness of a value parsed from JSON: None, False, 0, empty
string, empty list and empty dict are falsy. -/
def pyTruthy : Json → Bool
  | .null => false
  | .bool b => b
  | .num n => if n = 0 then false else true
  | .str s => if s = "" then false else true
  | .arr xs => !xs.isEmpty
  | .obj kvs => !kvs.isEmpty

/-- dict.get(key) on a parsed JSON object: the value stored under the key,
or none when absent. -/
def objGet (kvs : List (String × Json)) (k : String) : Option Json :=
  kvs.lookup k

/-! ## json.loads: a recursive-descent JSON reader

The source parses every response body with json.loads.  The model below
follows the documented JSON grammar that json.loads accepts: the four
whitespace characters, the three literals, integers (a body whose number
continues into a fraction or exponent is rejected, since the model carries
no floating-point values), strings with the short escapes and \uXXXX
(surrogate pairs recombined; a lone surrogate is rejected, as Lean strings
cannot hold one), arrays and objects.  A fuel argument bounds the nesting
depth so the functions are structurally recursive. -/

/-- The whitespace characters skipped by the json scanner. -/
def isJsonWs (c : Char) : Bool :=
  c = ' ' || c = '\t' || c = '\n' || c = '\r'

/-- Drop leading json whitespace. -/
def skipWs : List Char → List Char
  | [] => []
  | c :: cs => if isJsonWs c then skipWs cs else c :: cs

/-- Decode the four hex digits of a \uXXXX escape. -/
def hex4Val (h1 h2 h3 h4 : Char) : Option Nat :=
  match fromHex h1, fromHex h2, fromHex h3, fromHex h4 with
  | some a, some b, some c, some d => some (a * 4096 + b * 256 + c * 16 + d)
  | _, _, _, _ => none

/-- Decode the continuation of a \uXXXX escape that opened with a high
surrogate of value n: a second \uXXXX escape holding a low surrogate, the
pair recombined into one code point. -/
def escUPair (n : Nat) : List Char → Option (Char × List Char)
  | e2 :: u2 :: g1 :: g2 :: g3 :: g4 :: r2 =>
    if e2 = '\\' ∧ u2 = 'u' then
      match hex4Val g1 g2 g3 g4 with
      | some m =>
        if 56320 ≤ m ∧ m ≤ 57343 then
          some (Char.ofNat (65536 + (n - 55296) * 1024 + (m - 56320)), r2)
        else none
      | none => none
    else none
  | _ => none

/-- Decode the four hex digits of a \u escape and, for a high surrogate, the
mandatory low-surrogate continuation (a lone surrogate is rejected). -/
def escU : List Char → Option (Char × List Char)
  | h1 :: h2 :: h3 :: h4 :: r1 =>
    match hex4Val h1 h2 h3 h4 with
    | some n =>
      if 55296 ≤ n ∧ n ≤ 56319 then escUPair n r1
      else if 56320 ≤ n ∧ n ≤ 57343 then none
      else some (Char.ofNat n, r1)
    | none => none
  | _ => none

/-- Decode one backslash escape from the input following the backslash. -/
def escDecode : List Char → Option (Char × List Char)
  | [] => none
  | e :: r =>
    if e = '"' then some ('"', r)
    else if e = '\\' then some ('\\', r)
    else if e = '/' then some ('/', r)
    else if e = 'b' then some (Char.ofNat 8, r)
    else if e = 'f' then some (Char.ofNat 12, r)
    else if e = 'n' then some ('\n', r)
    else if e = 'r' then some ('\r', r)
    else if e = 't' then some ('\t', r)
    else if e = 'u' then escU r
    else none

/-- Scan a JSON string body after the opening quote, accumulating decoded
characters in reverse; returns the decoded string and the input after the
closing quote.  The fuel bounds the number of decoded characters; callers
pass the input length plus one. -/
def parseStrAux : Nat → List Char → List Char → Option (String × List Char)
  | 0, _, _ => none
  | _ + 1, _, [] => none
  | fuel + 1, acc, c :: rest =>
    if c = '"' then some (String.mk acc.reverse, rest)
    else if c = '\\' then
      match escDecode rest with
      | some p => parseStrAux fuel (p.1 :: acc) p.2
      | none => none
    else if c.toNat < 32 then none
    else parseStrAux fuel (c :: acc) rest

/-- Decimal digit test on the character code. -/
def isDigitCh (c : Char) : Bool :=
  48 ≤ c.toNat && c.toNat ≤ 57

/-- Accumulate a run of decimal digits into a value, stopping at the first
non-digit. -/
def parseNatAux : Nat → List Char → Nat × List Char
  | acc, [] => (acc, [])
  | acc, c :: cs =>
    if isDigitCh c then parseNatAux (acc * 10 + (c.toNat - 48)) cs else (acc, c :: cs)

/-- Read a non-empty run of decimal digits. -/
def parseNat : List Char → Option (Nat × List Char)
  | [] => none
  | c :: cs => if isDigitCh c then some (parseNatAux (c.toNat - 48) cs) else none

/-- Whether the input continues an integer into a fraction or exponent. -/
def floatStart : List Char → Bool
  | [] => false
  | c :: _ => c = '.' || c = 'e' || c = 'E'

/-- The input neither continues a decimal integer nor extends it into a
float: it is empty or starts with a non-digit other than a period or an
exponent marker. -/
def numBoundary : List Char → Bool
  | [] => true
  | c :: _ => !isDigitCh c && c != '.' && c != 'e' && c != 'E'

/-- Drop an expected literal token tail, character by character. -/
def stripTok : List Char → List Char → Option (List Char)
  | [], cs => some cs
  | _ :: _, [] => none
  | t :: ts, c :: cs => if c = t then stripTok ts cs else none

mutual

/-- Parse one JSON value after skipping leading whitespace. -/
def parseValue : Nat → List Char → Option (Json × List Char)
  | 0, _ => none
  | fuel + 1, cs =>
    match skipWs cs with
    | [] => none
    | c :: r =>
      if c = 'n' then (stripTok ['u', 'l', 'l'] r).map (fun r2 => (Json.null, r2))
      else if c = 't' then (stripTok ['r', 'u', 'e'] r).map (fun r2 => (Json.bool true, r2))
      else if c = 'f' then (stripTok ['a', 'l', 's', 'e'] r).map (fun r2 => (Json.bool false, r2))
      else if c = '"' then (parseStrAux (r.length + 1) [] r).map (fun p => (Json.str p.1, p.2))
      else if c = '[' then
        match skipWs r with
        | [] => none
        | c2 :: r2 =>
          if c2 = ']' then some (Json.arr [], r2)
          else (parseItems fuel (c2 :: r2)).map (fun p => (Json.arr p.1, p.2))
      else if c = lbrace then
        match skipWs r with
        | [] => none
        | c2 :: r2 =>
          if c2 = rbrace then some (Json.obj [], r2)
          else (parseMembers fuel (c2 :: r2)).map (fun p => (Json.obj p.1, p.2))
      else if c = '-' then
        (parseNat r).bind (fun p =>
          if floatStart p.2 then none else some (Json.num (-(p.1 : Int)), p.2))
      else if isDigitCh c then
        (parseNat (c :: r)).bind (fun p =>
          if floatStart p.2 then none else some (Json.num ((p.1 : Int)), p.2))
      else none

/-- Parse the items of a non-empty array up to and including the closing
bracket. -/
def parseItems : Nat → List Char → Option (List Json × List Char)
  | 0, _ => none
  | fuel + 1, cs =>
    (parseValue fuel cs).bind (fun p =>
      match skipWs p.2 with
      | [] => none
      | c2 :: r2 =>
        if c2 = ',' then (parseItems fuel r2).map (fun q => (p.1 :: q.1, q.2))
        else if c2 = ']' then some ([p.1], r2)
        else none)

/-- Parse the members of a non-empty object (input already stripped of
leading whitespace) up to and including the closing brace. -/
def parseMembers : Nat → List Char → Option (List (String × Json) × List Char)
  | 0, _ => none
  | fuel + 1, cs =>
    match cs with
    | [] => none
    | c :: r =>
      if c = '"' then
        (parseStrAux (r.length + 1) [] r).bind (fun pk =>
          match skipWs pk.2 with
          | [] => none
          | c2 :: r2 =>
            if c2 = ':' then
              (parseValue fuel r2).bind (fun pv =>
                match skipWs pv.2 with
                | [] => none
                | c3 :: r3 =>
                  if c3 = ',' then
                    (parseMembers fuel (skipWs r3)).map (fun q => ((pk.1, pv.1) :: q.1, q.2))
                  else if c3 = rbrace then some ([(pk.1, pv.1)], r3)
                  else none)
            else none)
      else none

end

/-- json.loads on a full document: one value, then only trailing whitespace
(anything further raises the Extra data error, modelled as none). -/
def loads (s : String) : Option Json :=
  (parseValue (s.data.length + 1) s.data).bind (fun p =>
    if skipWs p.2 = [] then some p.1 else none)

/-! ## Query Client: URL construction (query_ip, lines 16-18 of the source) -/

/-- Whitespace recognised by Python str.strip with no arguments: the ASCII
whitespace characters plus the Unicode space separators and separator
controls that str.isspace accepts. -/
def isPySpace (c : Char) : Bool :=
  let n := c.toNat
  (9 ≤ n ∧ n ≤ 13) || n = 32 || (28 ≤ n ∧ n ≤ 31) || n = 133 || n = 160 ||
  n = 5760 || (8192 ≤ n ∧ n ≤ 8202) || n = 8232 || n = 8233 || n = 8239 ||
  n = 8287 || n = 12288

/-- Python str.strip(): drop leading and trailing whitespace. -/
def pyStrip (s : String) : String :=
  String.mk ((((s.data.dropWhile isPySpace).reverse).dropWhile isPySpace).reverse)

/-- UTF-8 encoding of one character as byte values, the encoding
urllib.parse.quote applies to a str argument before percent-encoding. -/
def utf8Bytes (c : Char) : List Nat :=
  let n := c.toNat
  if n < 128 then [n]
  else if n < 2048 then [192 + n / 64, 128 + n % 64]
  else if n < 65536 then [224 + n / 4096, 128 + n / 64 % 64, 128 + n % 64]
  else [240 + n / 262144, 128 + n / 4096 % 64, 128 + n / 64 % 64, 128 + n % 64]

/-- Upper-case hexadecimal digit character, as used by the %XX escapes of
urllib.parse.quote. -/
def hexDigUp : Nat → Char
  | 0 => '0' | 1 => '1' | 2 => '2' | 3 => '3' | 4 => '4'
  | 5 => '5' | 6 => '6' | 7 => '7' | 8 => '8' | 9 => '9'
  | 10 => 'A' | 11 => 'B' | 12 => 'C' | 13 => 'D' | 14 => 'E' | _ => 'F'

/-- Bytes urllib.parse.quote leaves unencoded with the default safe
characters: ASCII letters, digits, underscore, period, hyphen, tilde, and
the default safe character slash. -/
def quoteSafe (b : Nat) : Bool :=
  (65 ≤ b ∧ b ≤ 90) || (97 ≤ b ∧ b ≤ 122) || (48 ≤ b ∧ b ≤ 57) ||
  b = 95 || b = 46 || b = 45 || b = 126 || b = 47

/-- Percent-encoding of one byte: the byte itself as a character when safe,
otherwise a %XX escape with upper-case hex digits. -/
def quoteByte (b : Nat) : List Char :=
  if quoteSafe b then [Char.ofNat b] else ['%', hexDigUp (b / 16 % 16), hexDigUp (b % 16)]

/-- Percent-encoding of a byte list, concatenated. -/
def quoteBytes : List Nat → List Char
  | [] => []
  | b :: bs => quoteByte b ++ quoteBytes bs

/-- The UTF-8 byte sequence of a character list. -/
def utf8Encode : List Char → List Nat
  | [] => []
  | c :: cs => utf8Bytes c ++ utf8Encode cs

/-- urllib.parse.quote(s) with its default safe characters. -/
def quote (s : String) : String :=
  String.mk (quoteBytes (utf8Encode s.data))

/-- The fixed base endpoint API_BASE of the source. -/
def API_BASE : String := "http://ip-api.com/json/"

/-- The request target built by query_ip:
url = API_BASE + urllib.parse.quote(ip.strip()). -/
def query_ip_url (ip : String) : String :=
  API_BASE ++ quote (pyStrip ip)

/-! ## Presentation Controller state (IPFinderApp) -/

/-- The transient UI state owned by IPFinderApp: the input text variable,
the text shown in the output box, the last stored payload, the enabled
state of the three lockable buttons, and the status label text.  Buttons
are true when enabled (state="normal"). -/
structure UIState where
  ip_var : String
  out : String
  last_json : Option Json
  btn_lookup : Bool
  btn_myip : Bool
  copy_btn : Bool
  status : String

/-- The state built in __init__: empty input, empty output, no stored
payload, all controls enabled, status label "Ready". -/
def initState : UIState :=
  { ip_var := "", out := "", last_json := none,
    btn_lookup := true, btn_myip := true, copy_btn := true, status := "Ready" }

/-- The clear method: reset input, output and stored payload, set status to
"Cleared".  Button states are not touched. -/
def clear (s : UIState) : UIState :=
  { s with ip_var := "", out := "", last_json := none, status := "Cleared" }

/-- Observable outcome of the copy_json method: either the nothing-to-copy
notice, or the text placed on the clipboard. -/
inductive CopyResult where
  | nothing
  | copied (text : String)
deriving DecidableEq

/-- The copy_json method: if not self.last_json (Python truthiness, so both
a missing payload and a stored falsy payload such as an empty object take
this branch) show the nothing-to-copy notice and leave the state unchanged;
otherwise place json.dumps(last_json, indent=2) on the clipboard and set the
status.  Clipboard access is modelled as succeeding. -/
def copy_json (s : UIState) : CopyResult × UIState :=
  match s.last_json with
  | none => (CopyResult.nothing, s)
  | some j =>
      if pyTruthy j then
        (CopyResult.copied (dumps j), { s with status := "JSON copied to clipboard" })
      else
        (CopyResult.nothing, s)

/-- The UI-lock prologue of the lookup method: disable the three buttons,
set status to "Querying...", replace the output text. -/
def lookup_begin (s : UIState) : UIState :=
  { s with
    btn_lookup := false, btn_myip := false, copy_btn := false,
    status := "Querying...", out := "Querying ip-api.com...\n" }

/-- The on_error callback: show the error text, set status to "Error",
re-enable the three buttons. -/
def on_error (s : UIState) (err : String) : UIState :=
  { s with
    out := "Error: " ++ err, status := "Error",
    btn_lookup := true, btn_myip := true, copy_btn := true }

/-- The fixed fields table of format_result: payload key paired with
display label, in source order. -/
def fields : List (String × String) :=
  [("query", "IP"), ("country", "Country"), ("countryCode", "Country Code"),
   ("regionName", "Region"), ("region", "Region Code"), ("city", "City"),
   ("zip", "ZIP"), ("lat", "Latitude"), ("lon", "Longitude"),
   ("timezone", "Timezone"), ("isp", "ISP"), ("org", "Org"), ("as", "AS")]

/-- Python format spec {label:13}: left-justify in a field of width 13. -/
def ljust13 (s : String) : String :=
  s ++ String.mk (List.replicate (13 - s.length) ' ')

/-- The header line emitted by format_result:
"IP Lookup Result (ip-api.com)\n" + "="*30. -/
def headerLine : String :=
  "IP Lookup Result (ip-api.com)\n" ++ String.mk (List.replicate 30 '=')

/-- The format_result method on a parsed payload dict: the header, one
f"{label:13}: {val}" line per fields entry with val = d.get(key, ""), an
empty line, "Full JSON:", and json.dumps(d, indent=2), joined by newlines. -/
def format_result (d : List (String × Json)) : String :=
  String.intercalate "\n"
    ([headerLine] ++
     fields.map (fun kl => ljust13 kl.2 ++ ": " ++ pyStr ((objGet d kl.1).getD (Json.str ""))) ++
     ["", "Full JSON:", dumps (Json.obj d)])

/-- The Python comparison data.get("status") == "success": true exactly when
the status key is present and holds the string "success" (equality of a
non-string value with a str is false in Python). -/
def isSuccessMarker : Option Json → Bool
  | some (Json.str s) => s == "success"
  | _ => false

/-- The on_success callback.  The raising attribute access data.get on a
non-dict value is embedded as an Except error; for a dict the method stores
the payload, shows either the failure report or the formatted result, sets
the status and re-enables the three buttons. -/
def on_success (s : UIState) (data : Json) : Except String UIState :=
  match data with
  | Json.obj kvs =>
      let s1 := { s with last_json := some (Json.obj kvs) }
      let s2 :=
        if !isSuccessMarker (objGet kvs "status") then
          let msg := pyStr ((objGet kvs "message").getD (Json.str "lookup failed"))
          { s1 with
            out := "Lookup failed: " ++ msg ++ "\n\nRaw response:\n"
              ++ dumps (Json.obj kvs),
            status := "Failed" }
        else
          { s1 with out := format_result kvs, status := "Done" }
      Except.ok { s2 with btn_lookup := true, btn_myip := true, copy_btn := true }
  | _ => Except.error "AttributeError"

/-- Outcome of the worker thread body: either query_ip raised and the
exception text was posted to on_error, or the parsed data was posted to
on_success. -/
inductive Outcome where
  | exn (msg : String)
  | parsed (data : Json)

/-- The completion of a lookup as marshalled back to the UI thread: on_error
for a caught exception, on_success for parsed data. -/
def lookup_finish (s : UIState) (o : Outcome) : Except String UIState :=
  match o with
  | .exn e => Except.ok (on_error s e)
  | .parsed d => on_success s d

/-! ## The report format as the specification states it

specFormatReport is written from the words of the specification (fixed
header, a table of exactly the thirteen labeled fields in the fixed order
IP, Country, Country Code, Region, Region Code, City, ZIP, Latitude,
Longitude, Timezone, ISP, Org, AS, an empty string substituted for any
absent field, then an indented-JSON dump of the full payload), to be
compared against format_result, which is translated from the code. -/

/-- Value shown in a table row per the specification: the empty string when
the field key is absent from the payload, the rendered value otherwise. -/
def specValO : Option Json → String
  | none => ""
  | some v => pyStr v

/-- The report laid out as the specification describes it. -/
def specFormatReport (d : List (String × Json)) : String :=
  String.intercalate "\n"
    [headerLine,
     ljust13 "IP" ++ ": " ++ specValO (objGet d "query"),
     ljust13 "Country" ++ ": " ++ specValO (objGet d "country"),
     ljust13 "Country Code" ++ ": " ++ specValO (objGet d "countryCode"),
     ljust13 "Region" ++ ": " ++ specValO (objGet d "regionName"),
     ljust13 "Region Code" ++ ": " ++ specValO (objGet d "region"),
     ljust13 "City" ++ ": " ++ specValO (objGet d "city"),
     ljust13 "ZIP" ++ ": " ++ specValO (objGet d "zip"),
     ljust13 "Latitude" ++ ": " ++ specValO (objGet d "lat"),
     ljust13 "Longitude" ++ ": " ++ specValO (objGet d "lon"),
     ljust13 "Timezone" ++ ": " ++ specValO (objGet d "timezone"),
     ljust13 "ISP" ++ ": " ++ specValO (objGet d "isp"),
     ljust13 "Org" ++ ": " ++ specValO (objGet d "org"),
     ljust13 "AS" ++ ": " ++ specValO (objGet d "as"),
     "", "Full JSON:", dumps (Json.obj d)]

/-! ## Size measures for the round-trip proof -/

mutual

/-- Structural size of a JSON value, used as parser fuel in proofs. -/
def sizeJ : Json → Nat
  | .null => 1
  | .bool _ => 1
  | .num _ => 1
  | .str _ => 1
  | .arr xs => 1 + sizeArr xs
  | .obj kvs => 1 + sizeObj kvs

/-- Structural size of an item list. -/
def sizeArr : List Json → Nat
  | [] => 1
  | x :: xs => 1 + sizeJ x + sizeArr xs

/-- Structural size of a member list. -/
def sizeObj : List (String × Json) → Nat
  | [] => 1
  | kv :: kvs => 1 + sizeJ kv.2 + sizeObj kvs

end

/-! ## Theorems -/

/-- The default-to-empty lookup of format_result agrees with the
specification's absent-means-blank rule. -/
theorem specValO_getD (o : Option Json) :
    pyStr (o.getD (Json.str "")) = specValO o := by
  cases o <;> rfl

/-- C3: for every address string the constructed request target equals the
fixed base endpoint concatenated with the percent-encoding of the
whitespace-trimmed string, and when the trimmed string is empty the target
equals the base endpoint alone. -/
theorem query_ip_url_matches_spec (ip : String) :
    query_ip_url ip = API_BASE ++ quote (pyStrip ip) ∧
    (pyStrip ip = "" → query_ip_url ip = API_BASE) := by
  refine ⟨rfl, fun h => ?_⟩
  rw [query_ip_url, h]
  rfl

/-- Witness for C3 at the whitespace-only input. -/
theorem query_ip_url_matches_spec_witness :
    pyStrip "  " = "" ∧ query_ip_url "  " = API_BASE :=
  ⟨rfl, (query_ip_url_matches_spec "  ").2 rfl⟩

/-- C4: for every payload object the formatted report is the fixed header,
the table of exactly the thirteen labeled fields in the fixed order with an
empty string substituted for absent keys, and the indented-JSON dump of the
full payload. -/
theorem format_result_matches_spec (d : List (String × Json)) :
    format_result d = specFormatReport d := by
  simp [format_result, specFormatReport, fields, specValO_getD]

/-- C8: invoking Clear twice in a row yields a state identical to invoking
it once: empty input text, empty display, no stored payload, status text
"Cleared". -/
theorem clear_idempotent (s : UIState) :
    clear (clear s) = clear s ∧ (clear s).ip_var = "" ∧ (clear s).out = "" ∧
    (clear s).last_json = none ∧ (clear s).status = "Cleared" :=
  ⟨rfl, rfl, rfl, rfl, rfl⟩

/-- C9: two invocations of the formatting routine on the same payload object
produce identical reports. -/
theorem format_result_deterministic (d1 d2 : List (String × Json)) (h : d1 = d2) :
    format_result d1 = format_result d2 := by
  rw [h]

/-- Witness for C9 at a concrete payload. -/
theorem format_result_deterministic_witness :
    format_result [("query", Json.str "8.8.8.8")] = format_result [("query", Json.str "8.8.8.8")] :=
  format_result_deterministic _ _ rfl

/-- C10: the Copy action decides by truthiness: a missing payload or a
stored falsy payload (such as the empty object) yields the nothing-to-copy
notice, and the payload is copied exactly when it is truthy. -/
theorem copy_json_requires_truthy (s : UIState) :
    ((s.last_json = none ∨ (∃ j, s.last_json = some j ∧ pyTruthy j = false)) →
      (copy_json s).1 = CopyResult.nothing) ∧
    (∀ j, s.last_json = some j → pyTruthy j = true →
      (copy_json s).1 = CopyResult.copied (dumps j)) := by
  refine ⟨fun h => ?_, fun j hj ht => ?_⟩
  · rcases h with h | ⟨j, hj, ht⟩
    · simp [copy_json, h]
    · simp [copy_json, hj, ht]
  · simp [copy_json, hj, ht]

/-- Witness for C10: a stored empty object is reported as nothing to copy. -/
theorem copy_json_requires_truthy_witness :
    (copy_json { initState with last_json := some (Json.obj []) }).1 = CopyResult.nothing :=
  (copy_json_requires_truthy _).1 (Or.inr ⟨Json.obj [], rfl, rfl⟩)

/-- C5: for a parsed object whose status field is not the success marker,
the display shows "Lookup failed: " followed by the message field (or the
generic "lookup failed" when absent) and the raw indented-JSON dump, and the
status label becomes "Failed". -/
theorem on_success_provider_failure (s : UIState) (kvs : List (String × Json))
    (h : isSuccessMarker (objGet kvs "status") = false) :
    ∃ s2, on_success s (Json.obj kvs) = Except.ok s2 ∧
      s2.out = "Lookup failed: " ++ pyStr ((objGet kvs "message").getD (Json.str "lookup failed"))
        ++ "\n\nRaw response:\n" ++ dumps (Json.obj kvs) ∧
      s2.status = "Failed" := by
  simp only [on_success, h, Bool.not_false, if_true]
  exact ⟨_, rfl, rfl, rfl⟩

/-- Witness for C5 at the provider-failure payload of the specification. -/
theorem on_success_provider_failure_witness :
    ∃ s2, on_success initState
        (Json.obj [("status", Json.str "fail"), ("message", Json.str "invalid query")])
        = Except.ok s2 ∧
      s2.out = "Lookup failed: "
        ++ pyStr ((objGet [("status", Json.str "fail"), ("message", Json.str "invalid query")]
            "message").getD (Json.str "lookup failed"))
        ++ "\n\nRaw response:\n"
        ++ dumps (Json.obj [("status", Json.str "fail"), ("message", Json.str "invalid query")]) ∧
      s2.status = "Failed" :=
  on_success_provider_failure initState _ rfl

/-- C6: every enumerated failure path of a lookup cycle (caught transport or
parse exception, or provider-reported failure) re-enables the three
lookup-triggering controls. -/
theorem failure_reenables_controls (s : UIState) (o : Outcome)
    (h : (∃ e, o = Outcome.exn e) ∨
      (∃ kvs, o = Outcome.parsed (Json.obj kvs) ∧
        isSuccessMarker (objGet kvs "status") = false)) :
    ∃ s2, lookup_finish (lookup_begin s) o = Except.ok s2 ∧
      s2.btn_lookup = true ∧ s2.btn_myip = true ∧ s2.copy_btn = true := by
  rcases h with ⟨e, rfl⟩ | ⟨kvs, rfl, hf⟩
  · exact ⟨_, rfl, rfl, rfl, rfl⟩
  · exact ⟨_, rfl, rfl, rfl, rfl⟩

/-- Witness for C6 on a caught transport error. -/
theorem failure_reenables_controls_witness :
    ∃ s2, lookup_finish (lookup_begin initState) (Outcome.exn "timed out") = Except.ok s2 ∧
      s2.btn_lookup = true ∧ s2.btn_myip = true ∧ s2.copy_btn = true :=
  failure_reenables_controls initState _ (Or.inl ⟨"timed out", rfl⟩)

/-- Counterexample to C2 as stated: the body "5" parses as valid JSON, yet
the result-handling path raises an AttributeError instead of completing. -/
theorem lookup_result_handler_raises :
    loads "5" = some (Json.num 5) ∧
    lookup_finish initState (Outcome.parsed (Json.num 5)) = Except.error "AttributeError" :=
  ⟨rfl, rfl⟩

/-- C2 (amended): a caught worker exception or a body parsing to a JSON
object always completes the result-handling path with a state, never an
uncaught exception. -/
theorem lookup_finish_no_raise (s : UIState) (o : Outcome)
    (h : (∃ e, o = Outcome.exn e) ∨ (∃ kvs, o = Outcome.parsed (Json.obj kvs))) :
    ∃ s2, lookup_finish s o = Except.ok s2 := by
  rcases h with ⟨e, rfl⟩ | ⟨kvs, rfl⟩
  · exact ⟨_, rfl⟩
  · exact ⟨_, rfl⟩

/-- Witness for the amended C2 on a caught exception. -/
theorem lookup_finish_no_raise_witness :
    ∃ s2, lookup_finish initState (Outcome.exn "connection refused") = Except.ok s2 :=
  lookup_finish_no_raise initState _ (Or.inl ⟨"connection refused", rfl⟩)

/-- Counterexample to C1 as stated: after a provider-reported failure the
stored payload is not unset, and Copy does not report nothing-to-copy. -/
theorem provider_failure_payload_stored_cex :
    ∃ s2, on_success initState
        (Json.obj [("status", Json.str "fail"), ("message", Json.str "invalid query")])
        = Except.ok s2 ∧
      s2.last_json ≠ none ∧
      (copy_json s2).1 ≠ CopyResult.nothing := by
  have h : isSuccessMarker
      (objGet [("status", Json.str "fail"), ("message", Json.str "invalid query")] "status")
      = false := rfl
  simp only [on_success, h, Bool.not_false, if_true]
  refine ⟨_, rfl, ?_, ?_⟩
  · simp
  · simp [copy_json, pyTruthy]

/-- C1 (amended): on a provider-reported failure on_success stores the full
failure object as the last payload (the assignment precedes the status
check), so a subsequent Copy copies its indented JSON whenever the failure
object is non-empty. -/
theorem provider_failure_stores_payload (s : UIState) (kvs : List (String × Json))
    (h : isSuccessMarker (objGet kvs "status") = false) :
    ∃ s2, on_success s (Json.obj kvs) = Except.ok s2 ∧
      s2.last_json = some (Json.obj kvs) ∧
      (kvs ≠ [] → (copy_json s2).1 = CopyResult.copied (dumps (Json.obj kvs))) := by
  simp only [on_success, h, Bool.not_false, if_true]
  refine ⟨_, rfl, rfl, fun hne => ?_⟩
  have : kvs.isEmpty = false := by
    cases kvs with
    | nil => exact absurd rfl hne
    | cons a l => rfl
  simp [copy_json, pyTruthy, this]

/-! ## Round-trip helper lemmas (dumps then loads) -/

/-- Every character code is below the surrogate range or above it and below
0x110000. -/
theorem char_valid_bounds (c : Char) :
    c.toNat < 55296 ∨ (57343 < c.toNat ∧ c.toNat < 1114112) := c.valid

/-- Characters with distinct codes are distinct. -/
theorem char_ne_of_toNat (a b : Char) (h : a.toNat ≠ b.toNat) : a ≠ b :=
  fun e => h (by rw [e])

/-- Code, digit test and whitespace test of the decimal digit characters. -/
theorem digitChar_spec (m : Nat) (h : m < 10) :
    (digitChar m).toNat = 48 + m ∧ isDigitCh (digitChar m) = true ∧
      isJsonWs (digitChar m) = false := by
  interval_cases m <;> exact ⟨rfl, rfl, rfl⟩

/-- Bounds read off the digit test. -/
theorem isDigitCh_bounds (c : Char) (h : isDigitCh c = true) :
    48 ≤ c.toNat ∧ c.toNat ≤ 57 := by
  simpa [isDigitCh, Bool.and_eq_true, decide_eq_true_eq] using h

/-- A digit character is not one of the characters that dispatch the value
reader to another branch, and is not whitespace. -/
theorem digit_head_route (c : Char) (h : isDigitCh c = true) :
    c ≠ 'n' ∧ c ≠ 't' ∧ c ≠ 'f' ∧ c ≠ '"' ∧ c ≠ '[' ∧ c ≠ lbrace ∧ c ≠ '-' ∧
      c ≠ ']' ∧ c ≠ rbrace ∧ isJsonWs c = false := by
  obtain ⟨h1, h2⟩ := isDigitCh_bounds c h
  have sp : (' ').toNat = 32 := rfl
  have tb : ('\t').toNat = 9 := rfl
  have nl : ('\n').toNat = 10 := rfl
  have cr : ('\r').toNat = 13 := rfl
  refine ⟨char_ne_of_toNat _ _ ?_, char_ne_of_toNat _ _ ?_, char_ne_of_toNat _ _ ?_,
    char_ne_of_toNat _ _ ?_, char_ne_of_toNat _ _ ?_, char_ne_of_toNat _ _ ?_,
    char_ne_of_toNat _ _ ?_, char_ne_of_toNat _ _ ?_, char_ne_of_toNat _ _ ?_, ?_⟩ <;>
    first
      | (show c.toNat ≠ 110; omega)
      | (show c.toNat ≠ 116; omega)
      | (show c.toNat ≠ 102; omega)
      | (show c.toNat ≠ 34; omega)
      | (show c.toNat ≠ 91; omega)
      | (show c.toNat ≠ 123; omega)
      | (show c.toNat ≠ 45; omega)
      | (show c.toNat ≠ 93; omega)
      | (show c.toNat ≠ 125; omega)
      | (simp only [isJsonWs, Bool.or_eq_false_iff, decide_eq_false_iff_not]
         refine ⟨⟨⟨char_ne_of_toNat _ _ ?_, char_ne_of_toNat _ _ ?_⟩,
           char_ne_of_toNat _ _ ?_⟩, char_ne_of_toNat _ _ ?_⟩ <;> omega)

/-- Skipping whitespace ignores a leading whitespace character. -/
theorem skipWs_cons_ws (c : Char) (cs : List Char) (h : isJsonWs c = true) :
    skipWs (c :: cs) = skipWs cs := by
  simp [skipWs, h]

/-- Skipping whitespace stops at a non-whitespace head. -/
theorem skipWs_cons_not (c : Char) (cs : List Char) (h : isJsonWs c = false) :
    skipWs (c :: cs) = c :: cs := by
  simp [skipWs, h]

/-- Leading spaces are skipped. -/
theorem skipWs_replicate_sp (n : Nat) (cs : List Char) :
    skipWs (List.replicate n ' ' ++ cs) = skipWs cs := by
  induction n with
  | zero => rfl
  | succ k ih => simpa [List.replicate_succ, skipWs] using ih

/-- The newline-indent separator is entirely whitespace. -/
theorem skipWs_nlIndent (lvl : Nat) (cs : List Char) :
    skipWs (nlIndent lvl ++ cs) = skipWs cs := by
  simp only [nlIndent, List.cons_append]
  rw [skipWs_cons_ws _ _ (by rfl), skipWs_replicate_sp]

/-- The decimal representation is never empty. -/
theorem natChars_ne_nil (n : Nat) : natChars n ≠ [] := by
  rw [natChars]
  split
  · simp
  · simp

/-- The decimal representation starts with a digit character. -/
theorem natChars_head (n : Nat) :
    ∃ m ds, m < 10 ∧ natChars n = digitChar m :: ds := by
  induction n using Nat.strong_induction_on with
  | _ n ih =>
    rw [natChars]
    split
    · exact ⟨n, [], by omega, rfl⟩
    · rename_i h
      obtain ⟨m, ds, hm, he⟩ := ih (n / 10) (Nat.div_lt_self (by omega) (by omega))
      exact ⟨m, ds ++ [digitChar (n % 10)], hm, by rw [he]; rfl⟩

/-- Every character of the decimal representation is a digit. -/
theorem natChars_digits (n : Nat) : ∀ c ∈ natChars n, isDigitCh c = true := by
  induction n using Nat.strong_induction_on with
  | _ n ih =>
    rw [natChars]
    split
    · rename_i h
      intro c hc
      simp only [List.mem_singleton] at hc
      rw [hc]
      exact (digitChar_spec n h).2.1
    · rename_i h
      intro c hc
      rw [List.mem_append] at hc
      rcases hc with hc | hc
      · exact ih (n / 10) (Nat.div_lt_self (by omega) (by omega)) c hc
      · simp only [List.mem_singleton] at hc
        rw [hc]
        exact (digitChar_spec (n % 10) (Nat.mod_lt _ (by omega))).2.1

/-- Folding the digit-accumulation step over the decimal representation of n
starting from a recovers a * 10 ^ (number of digits) + n. -/
theorem natChars_foldl (n : Nat) : ∀ a : Nat,
    List.foldl (fun acc c => acc * 10 + (c.toNat - 48)) a (natChars n)
      = a * 10 ^ (natChars n).length + n := by
  induction n using Nat.strong_induction_on with
  | _ n ih =>
    intro a
    rw [natChars]
    split
    · rename_i h
      simp [List.foldl, (digitChar_spec n h).1]
    · rename_i h
      rw [List.foldl_append, ih (n / 10) (Nat.div_lt_self (by omega) (by omega)) a]
      simp only [List.foldl, List.length_append, List.length_singleton]
      rw [(digitChar_spec (n % 10) (Nat.mod_lt _ (by omega))).1]
      rw [pow_succ]
      have h2 : 10 * (n / 10) + n % 10 = n := Nat.div_add_mod n 10
      have h3 : 48 + n % 10 - 48 = n % 10 := by omega
      rw [h3, Nat.add_mul, Nat.mul_assoc]
      omega

/-- Digit accumulation consumes exactly a run of digits and stops at a
non-digit boundary. -/
theorem parseNatAux_digits (ds : List Char) : ∀ (a : Nat) (rest : List Char),
    (∀ c ∈ ds, isDigitCh c = true) →
    (∀ c r2, rest = c :: r2 → isDigitCh c = false) →
    parseNatAux a (ds ++ rest)
      = (List.foldl (fun acc c => acc * 10 + (c.toNat - 48)) a ds, rest) := by
  induction ds with
  | nil =>
    intro a rest _ hr
    cases rest with
    | nil => rfl
    | cons c r2 => simp [parseNatAux, hr c r2 rfl]
  | cons d ds ih =>
    intro a rest hd hr
    have hdd : isDigitCh d = true := hd d (List.mem_cons_self d ds)
    simp only [List.cons_append, parseNatAux, hdd, if_true, List.foldl]
    exact ih _ rest (fun c hc => hd c (List.mem_cons_of_mem d hc)) hr

/-- A numBoundary tail begins with a non-digit (if anything). -/
theorem numBoundary_head (rest : List Char) (h : numBoundary rest = true) :
    ∀ c r2, rest = c :: r2 → isDigitCh c = false := by
  intro c r2 he
  subst he
  simp only [numBoundary, Bool.and_eq_true, Bool.not_eq_true'] at h
  exact h.1.1.1

/-- A numBoundary tail does not extend the number into a float. -/
theorem numBoundary_float (rest : List Char) (h : numBoundary rest = true) :
    floatStart rest = false := by
  cases rest with
  | nil => rfl
  | cons c r2 =>
    simp only [numBoundary, Bool.and_eq_true, bne_iff_ne] at h
    simp [floatStart, h.1.1.2, h.1.2, h.2]

/-- Reading the digits of the decimal representation of n recovers n and
stops exactly at the boundary. -/
theorem parseNat_natChars (n : Nat) (rest : List Char) (h : numBoundary rest = true) :
    parseNat (natChars n ++ rest) = some (n, rest) := by
  obtain ⟨m, ds, hm, he⟩ := natChars_head n
  have hds : ∀ c ∈ natChars n, isDigitCh c = true := natChars_digits n
  have hfold := natChars_foldl n 0
  rw [he] at hds hfold ⊢
  have hmd : isDigitCh (digitChar m) = true := hds _ (List.mem_cons_self _ _)
  simp only [List.cons_append, parseNat, hmd, if_true]
  rw [parseNatAux_digits ds ((digitChar m).toNat - 48) rest
    (fun c hc => hds c (List.mem_cons_of_mem _ hc)) (numBoundary_head rest h)]
  simp only [List.foldl, Nat.zero_mul, Nat.zero_add] at hfold
  rw [hfold]

/-- Reading back the decimal serialization of an integer recovers it. -/
theorem parseValue_intChars (fuel : Nat) (n : Int) (rest : List Char)
    (h : numBoundary rest = true) :
    parseValue (fuel + 1) (intChars n ++ rest) = some (Json.num n, rest) := by
  rw [intChars]
  by_cases hn : n < 0
  · simp only [hn, if_true, List.cons_append]
    have hskip : skipWs ('-' :: (natChars n.natAbs ++ rest))
        = '-' :: (natChars n.natAbs ++ rest) := skipWs_cons_not _ _ rfl
    have hlb : ('-' : Char) ≠ lbrace := by decide
    simp only [parseValue, hskip]
    norm_num [hlb]
    rw [parseNat_natChars _ _ h]
    simp only [Option.bind_eq_bind, Option.some_bind, numBoundary_float rest h,
      Bool.false_eq_true, if_false, Option.some.injEq, Prod.mk.injEq]
    rw [Int.ofNat_natAbs_of_nonpos (by omega), neg_neg]
    simp
  · simp only [hn, if_false]
    obtain ⟨m, ds, hm, he⟩ := natChars_head n.natAbs
    have hmd := (digitChar_spec m hm).2.1
    obtain ⟨r1, r2, r3, r4, r5, r6, r7, _, _, r10⟩ := digit_head_route _ hmd
    rw [he]
    have hskip : skipWs (digitChar m :: (ds ++ rest)) = digitChar m :: (ds ++ rest) :=
      skipWs_cons_not _ _ r10
    simp only [List.cons_append, parseValue, hskip, r1, r2, r3, r4, r5, r6, r7,
      if_false, hmd, if_true]
    rw [show digitChar m :: (ds ++ rest) = (digitChar m :: ds) ++ rest from rfl, ← he]
    rw [parseNat_natChars _ _ h]
    simp [numBoundary_float rest h]
    omega

/-- A hex digit character decodes to its value. -/
theorem fromHex_hexDig (m : Nat) (h : m < 16) : fromHex (hexDig m) = some m := by
  interval_cases m <;> rfl

/-- The four emitted hex digits of a code point below 0x10000 decode back to
it. -/
theorem hex4Val_hex4 (n : Nat) (h : n < 65536) :
    hex4Val (hexDig (n / 4096 % 16)) (hexDig (n / 256 % 16)) (hexDig (n / 16 % 16))
      (hexDig (n % 16)) = some n := by
  rw [hex4Val, fromHex_hexDig _ (Nat.mod_lt _ (by omega)),
    fromHex_hexDig _ (Nat.mod_lt _ (by omega)), fromHex_hexDig _ (Nat.mod_lt _ (by omega)),
    fromHex_hexDig _ (Nat.mod_lt _ (by omega))]
  simp only [Option.some.injEq]
  omega

/-- An escape starting with u is decoded by escU. -/
theorem escDecode_u (r : List Char) : escDecode ('u' :: r) = escU r := by
  simp [escDecode]

/-- The first equation of escU, spelled out for rewriting. -/
theorem escU_four (h1 h2 h3 h4 : Char) (r1 : List Char) :
    escU (h1 :: h2 :: h3 :: h4 :: r1)
      = match hex4Val h1 h2 h3 h4 with
        | some n =>
          if 55296 ≤ n ∧ n ≤ 56319 then escUPair n r1
          else if 56320 ≤ n ∧ n ≤ 57343 then none
          else some (Char.ofNat n, r1)
        | none => none := rfl

/-- The first equation of escUPair at a backslash-u continuation, spelled
out for rewriting. -/
theorem escUPair_six (n : Nat) (g1 g2 g3 g4 : Char) (r2 : List Char) :
    escUPair n ('\\' :: 'u' :: g1 :: g2 :: g3 :: g4 :: r2)
      = match hex4Val g1 g2 g3 g4 with
        | some m =>
          if 56320 ≤ m ∧ m ≤ 57343 then
            some (Char.ofNat (65536 + (n - 55296) * 1024 + (m - 56320)), r2)
          else none
        | none => none := by
  simp [escUPair]

/-- Decoding the emitted escape body of one character recovers it. -/
theorem escDecode_escBody (c : Char) (z : List Char) (h : needsEsc c) :
    escDecode (escBody c ++ z) = some (c, z) := by
  by_cases h1 : c = '"'
  · subst h1; rfl
  by_cases h2 : c = '\\'
  · subst h2; rfl
  by_cases h3 : c = '\n'
  · subst h3; rfl
  by_cases h4 : c = '\r'
  · subst h4; rfl
  by_cases h5 : c = '\t'
  · subst h5; rfl
  by_cases h6 : c.toNat = 8
  · have hc : c = Char.ofNat 8 := by rw [← Char.ofNat_toNat c, h6]
    subst hc; rfl
  by_cases h7 : c.toNat = 12
  · have hc : c = Char.ofNat 12 := by rw [← Char.ofNat_toNat c, h7]
    subst hc; rfl
  by_cases h9 : c.toNat < 65536
  · have hs1 : ¬(55296 ≤ c.toNat ∧ c.toNat ≤ 56319) := by
      rcases char_valid_bounds c with hv | hv <;> omega
    have hs2 : ¬(56320 ≤ c.toNat ∧ c.toNat ≤ 57343) := by
      rcases char_valid_bounds c with hv | hv <;> omega
    rw [escBody, if_neg h1, if_neg h2, if_neg h3, if_neg h4, if_neg h5, if_neg h6,
      if_neg h7, if_pos h9, hex4]
    simp [escDecode, escU, hex4Val_hex4 c.toNat h9, hs1, hs2, Char.ofNat_toNat]
  · have hv : c.toNat < 1114112 := by
      rcases char_valid_bounds c with hvv | hvv <;> omega
    have hhi : 55296 + (c.toNat - 65536) / 1024 < 65536 := by omega
    have hlo : 56320 + (c.toNat - 65536) % 1024 < 65536 := by
      have := Nat.mod_lt (c.toNat - 65536) (show 0 < 1024 by omega)
      omega
    have hs1 : 55296 ≤ 55296 + (c.toNat - 65536) / 1024 ∧
        55296 + (c.toNat - 65536) / 1024 ≤ 56319 := by omega
    have hs2 : 56320 ≤ 56320 + (c.toNat - 65536) % 1024 ∧
        56320 + (c.toNat - 65536) % 1024 ≤ 57343 := by
      have := Nat.mod_lt (c.toNat - 65536) (show 0 < 1024 by omega)
      omega
    have hdec : 65536 + (c.toNat - 65536) / 1024 * 1024 + (c.toNat - 65536) % 1024
        = c.toNat := by omega
    rw [escBody, if_neg h1, if_neg h2, if_neg h3, if_neg h4, if_neg h5, if_neg h6,
      if_neg h7, if_neg h9, hex4, hex4]
    simp only [List.cons_append, List.nil_append, List.append_assoc]
    rw [escDecode_u, escU_four, hex4Val_hex4 _ hhi]
    simp only [if_pos hs1]
    rw [escUPair_six, hex4Val_hex4 _ hlo]
    simp only [if_pos hs2, Option.some.injEq]
    have hx : 55296 + (c.toNat - 65536) / 1024 - 55296 = (c.toNat - 65536) / 1024 := by
      omega
    have hy : 56320 + (c.toNat - 65536) % 1024 - 56320 = (c.toNat - 65536) % 1024 := by
      omega
    rw [hx, hy, hdec, Char.ofNat_toNat]

/-- Escaping never shortens a character list. -/
theorem escChars_length (cs : List Char) : cs.length ≤ (escChars cs).length := by
  induction cs with
  | nil => simp [escChars]
  | cons c cs ih =>
    have h1 : 1 ≤ (escCh c).length := by
      rw [escCh]
      split <;> simp
    simp only [escChars, List.length_cons, List.length_append]
    omega

/-- Scanning the escaped body of a string up to the closing quote recovers
the accumulated characters and the string, for any sufficient fuel. -/
theorem parseStrAux_escChars (cs : List Char) : ∀ (fuel : Nat) (acc z : List Char),
    cs.length < fuel →
    parseStrAux fuel acc (escChars cs ++ ('"' :: z))
      = some (String.mk (acc.reverse ++ cs), z) := by
  induction cs with
  | nil =>
    intro fuel acc z h
    cases fuel with
    | zero => omega
    | succ f => simp [escChars, parseStrAux]
  | cons c cs ih =>
    intro fuel acc z h
    cases fuel with
    | zero => omega
    | succ f =>
      have hf : cs.length < f := by simp at h; omega
      rw [escChars, List.append_assoc, escCh]
      by_cases hne : needsEsc c
      · rw [if_pos hne]
        simp only [List.cons_append]
        simp [parseStrAux, escDecode_escBody c _ hne, ih f (c :: acc) z hf]
      · rw [if_neg hne]
        simp only [List.cons_append, List.nil_append]
        rw [needsEsc] at hne
        push_neg at hne
        obtain ⟨hq, hb, h32, _⟩ := hne
        have h32n : ¬c.toNat < 32 := by omega
        simp only [parseStrAux, if_neg hq, if_neg hb, if_neg h32n]
        rw [ih f (c :: acc) z hf]
        simp

/-- Scanning the emitted string literal body recovers the string, at the
fuel the value reader supplies. -/
theorem parseStr_round (s : String) (z : List Char) :
    parseStrAux ((escChars s.data ++ ('"' :: z)).length + 1) []
      (escChars s.data ++ ('"' :: z)) = some (s, z) := by
  have hlen : s.data.length < (escChars s.data ++ ('"' :: z)).length + 1 := by
    have := escChars_length s.data
    simp only [List.length_append, List.length_cons]
    omega
  rw [parseStrAux_escChars s.data _ [] z hlen]
  simp only [List.reverse_nil, List.nil_append]

/-- Every serialized value starts with a non-whitespace character that is
neither a closing bracket nor a closing brace. -/
theorem dumpsV_cons (lvl : Nat) (j : Json) :
    ∃ c cs, dumpsV lvl j = c :: cs ∧ isJsonWs c = false ∧ c ≠ ']' ∧ c ≠ rbrace := by
  cases j with
  | null => exact ⟨'n', _, rfl, by decide⟩
  | bool b =>
    cases b with
    | true => exact ⟨'t', _, rfl, by decide⟩
    | false => exact ⟨'f', _, rfl, by decide⟩
  | num n =>
    show ∃ c cs, intChars n = c :: cs ∧ _
    rw [intChars]
    by_cases hn : n < 0
    · exact ⟨'-', _, by rw [if_pos hn], by decide⟩
    · rw [if_neg hn]
      obtain ⟨m, ds, hm, he⟩ := natChars_head n.natAbs
      obtain ⟨_, hd2, hd3⟩ := digitChar_spec m hm
      obtain ⟨_, _, _, _, _, _, _, r8, r9, _⟩ := digit_head_route _ hd2
      exact ⟨digitChar m, ds, he, hd3, r8, r9⟩
  | str s => exact ⟨'"', _, rfl, by decide⟩
  | arr xs =>
    cases xs with
    | nil => exact ⟨'[', _, rfl, by decide⟩
    | cons x xs => exact ⟨'[', _, rfl, by decide⟩
  | obj kvs =>
    cases kvs with
    | nil => exact ⟨lbrace, _, rfl, by decide⟩
    | cons kv kvs => exact ⟨lbrace, _, rfl, by decide⟩

/-- Whitespace skipping leaves a serialized value alone. -/
theorem skipWs_dumpsV (lvl : Nat) (j : Json) (rest : List Char) :
    skipWs (dumpsV lvl j ++ rest) = dumpsV lvl j ++ rest := by
  obtain ⟨c, cs, he, hw, _, _⟩ := dumpsV_cons lvl j
  rw [he, List.cons_append, skipWs_cons_not _ _ hw]

/-- The value reader only looks at its input through skipWs. -/
theorem parseValue_ws (fuel : Nat) (a b : List Char) (h : skipWs a = skipWs b) :
    parseValue fuel a = parseValue fuel b := by
  cases fuel with
  | zero => rfl
  | succ f => simp only [parseValue, h]

/-- The item reader only looks at its input through skipWs. -/
theorem parseItems_ws (fuel : Nat) (a b : List Char) (h : skipWs a = skipWs b) :
    parseItems fuel a = parseItems fuel b := by
  cases fuel with
  | zero => rfl
  | succ f => simp only [parseItems, parseValue_ws f a b h]

/-- Sizes are positive. -/
theorem sizeJ_pos (j : Json) : 1 ≤ sizeJ j := by
  cases j <;> simp [sizeJ]

/-- Item-list sizes are positive. -/
theorem sizeArr_pos (xs : List Json) : 1 ≤ sizeArr xs := by
  cases xs <;> rw [sizeArr] <;> omega

/-- Member-list sizes are positive. -/
theorem sizeObj_pos (kvs : List (String × Json)) : 1 ≤ sizeObj kvs := by
  cases kvs <;> rw [sizeObj] <;> omega

/-- A literal token prefix is stripped exactly. -/
theorem stripTok_self (ts : List Char) : ∀ cs : List Char, stripTok ts (ts ++ cs) = some cs := by
  induction ts with
  | nil => intro cs; rfl
  | cons t ts ih => intro cs; simp [stripTok, ih]

/-- numBoundary holds after a comma. -/
theorem numBoundary_comma (cs : List Char) : numBoundary (',' :: cs) = true := rfl

/-- numBoundary holds after a newline. -/
theorem numBoundary_nl (cs : List Char) : numBoundary ('\n' :: cs) = true := rfl

/-- Dispatch of the value reader on a null literal. -/
theorem parseValue_succ_n (f : Nat) (W : List Char) :
    parseValue (f + 1) ('n' :: W)
      = (stripTok ['u', 'l', 'l'] W).map (fun r2 => (Json.null, r2)) := by
  simp [parseValue, skipWs, isJsonWs]

/-- Dispatch of the value reader on a true literal. -/
theorem parseValue_succ_t (f : Nat) (W : List Char) :
    parseValue (f + 1) ('t' :: W)
      = (stripTok ['r', 'u', 'e'] W).map (fun r2 => (Json.bool true, r2)) := by
  simp [parseValue, skipWs, isJsonWs]

/-- Dispatch of the value reader on a false literal. -/
theorem parseValue_succ_f (f : Nat) (W : List Char) :
    parseValue (f + 1) ('f' :: W)
      = (stripTok ['a', 'l', 's', 'e'] W).map (fun r2 => (Json.bool false, r2)) := by
  simp [parseValue, skipWs, isJsonWs]

/-- Dispatch of the value reader on an opening quote. -/
theorem parseValue_succ_quote (f : Nat) (W : List Char) :
    parseValue (f + 1) ('"' :: W)
      = (parseStrAux (W.length + 1) [] W).map (fun p => (Json.str p.1, p.2)) := by
  simp [parseValue, skipWs, isJsonWs]

/-- Dispatch of the value reader on an opening bracket. -/
theorem parseValue_succ_arr (f : Nat) (W : List Char) :
    parseValue (f + 1) ('[' :: W)
      = match skipWs W with
        | [] => none
        | c2 :: r2 =>
          if c2 = ']' then some (Json.arr [], r2)
          else (parseItems f (c2 :: r2)).map (fun p => (Json.arr p.1, p.2)) := by
  simp [parseValue, skipWs, isJsonWs]

/-- Dispatch of the value reader on an opening brace. -/
theorem parseValue_succ_obj (f : Nat) (W : List Char) :
    parseValue (f + 1) (lbrace :: W)
      = match skipWs W with
        | [] => none
        | c2 :: r2 =>
          if c2 = rbrace then some (Json.obj [], r2)
          else (parseMembers f (c2 :: r2)).map (fun p => (Json.obj p.1, p.2)) := by
  have g1 : lbrace ≠ 'n' := by decide
  have g2 : lbrace ≠ 't' := by decide
  have g3 : lbrace ≠ 'f' := by decide
  have g4 : lbrace ≠ '"' := by decide
  have g5 : lbrace ≠ '[' := by decide
  have g6 : isJsonWs lbrace = false := by decide
  simp [parseValue, skipWs, g1, g2, g3, g4, g5, g6]

/-- Dispatch of the member reader on the opening quote of a key. -/
theorem parseMembers_succ_quote (f : Nat) (W : List Char) :
    parseMembers (f + 1) ('"' :: W)
      = (parseStrAux (W.length + 1) [] W).bind (fun pk =>
          match skipWs pk.2 with
          | [] => none
          | c2 :: r2 =>
            if c2 = ':' then
              (parseValue f r2).bind (fun pv =>
                match skipWs pv.2 with
                | [] => none
                | c3 :: r3 =>
                  if c3 = ',' then
                    (parseMembers f (skipWs r3)).map (fun q => ((pk.1, pv.1) :: q.1, q.2))
                  else if c3 = rbrace then some ([(pk.1, pv.1)], r3)
                  else none)
            else none) := by
  simp [parseMembers]

/-- The opening equation of the item reader. -/
theorem parseItems_succ (f : Nat) (cs : List Char) :
    parseItems (f + 1) cs
      = (parseValue f cs).bind (fun p =>
          match skipWs p.2 with
          | [] => none
          | c2 :: r2 =>
            if c2 = ',' then (parseItems f r2).map (fun q => (p.1 :: q.1, q.2))
            else if c2 = ']' then some ([p.1], r2)
            else none) := by
  simp [parseItems]

/-- Reading back a serialized value, item list or member list recovers it,
for every sufficient fuel. -/
theorem parse_dumps_aux : ∀ fuel : Nat,
    (∀ j lvl rest, sizeJ j < fuel → numBoundary rest = true →
      parseValue fuel (dumpsV lvl j ++ rest) = some (j, rest)) ∧
    (∀ x xs lvl lvl2 rest, 1 + sizeJ x + sizeArr xs ≤ fuel →
      parseItems fuel
        (dumpsV lvl x ++ (dumpsArr lvl xs ++ (nlIndent lvl2 ++ (']' :: rest))))
        = some (x :: xs, rest)) ∧
    (∀ (k : String) (v : Json) (kvs : List (String × Json)) lvl lvl2 rest,
      1 + sizeJ v + sizeObj kvs ≤ fuel →
      parseMembers fuel
        ('"' :: (escChars k.data ++ ('"' :: (':' :: (' ' :: (dumpsV lvl v ++
          (dumpsObj lvl kvs ++ (nlIndent lvl2 ++ (rbrace :: rest)))))))))
        = some ((k, v) :: kvs, rest)) := by
  intro fuel
  induction fuel with
  | zero =>
    refine ⟨fun j _ _ hs _ => absurd hs (by have := sizeJ_pos j; omega),
      fun x xs _ _ _ hs => absurd hs (by have := sizeJ_pos x; have := sizeArr_pos xs; omega),
      fun _ v kvs _ _ _ hs => absurd hs (by have := sizeJ_pos v; have := sizeObj_pos kvs; omega)⟩
  | succ f ih =>
    obtain ⟨ihP, ihQ, ihR⟩ := ih
    refine ⟨?_, ?_, ?_⟩
    · intro j lvl rest hs hnb
      cases j with
      | null =>
        rw [show dumpsV lvl Json.null = ['n', 'u', 'l', 'l'] from rfl]
        simp only [List.cons_append, List.nil_append]
        rw [parseValue_succ_n,
          show ('u' :: 'l' :: 'l' :: rest) = ['u', 'l', 'l'] ++ rest from rfl, stripTok_self]
        rfl
      | bool b =>
        cases b with
        | true =>
          rw [show dumpsV lvl (Json.bool true) = ['t', 'r', 'u', 'e'] from rfl]
          simp only [List.cons_append, List.nil_append]
          rw [parseValue_succ_t,
            show ('r' :: 'u' :: 'e' :: rest) = ['r', 'u', 'e'] ++ rest from rfl, stripTok_self]
          rfl
        | false =>
          rw [show dumpsV lvl (Json.bool false) = ['f', 'a', 'l', 's', 'e'] from rfl]
          simp only [List.cons_append, List.nil_append]
          rw [parseValue_succ_f,
            show ('a' :: 'l' :: 's' :: 'e' :: rest) = ['a', 'l', 's', 'e'] ++ rest from rfl,
            stripTok_self]
          rfl
      | num n =>
        rw [show dumpsV lvl (Json.num n) = intChars n from rfl]
        exact parseValue_intChars f n rest hnb
      | str s =>
        rw [show dumpsV lvl (Json.str s) = '"' :: (escChars s.data ++ ['"']) from rfl]
        simp only [List.cons_append, List.append_assoc, List.singleton_append]
        rw [parseValue_succ_quote, parseStr_round]
        rfl
      | arr xs =>
        cases xs with
        | nil =>
          rw [show dumpsV lvl (Json.arr []) = ['[', ']'] from rfl]
          simp only [List.cons_append, List.nil_append]
          rw [parseValue_succ_arr, skipWs_cons_not _ _ (by rfl)]
          simp
        | cons x xs =>
          rw [show dumpsV lvl (Json.arr (x :: xs))
              = '[' :: (nlIndent (lvl + 1) ++ dumpsV (lvl + 1) x ++ dumpsArr (lvl + 1) xs
                ++ nlIndent lvl ++ [']']) from rfl]
          simp only [List.cons_append, List.append_assoc, List.singleton_append,
            List.nil_append]
          rw [parseValue_succ_arr, skipWs_nlIndent, skipWs_dumpsV]
          obtain ⟨c0, cs0, he0, hw0, hbr0, hbc0⟩ := dumpsV_cons (lvl + 1) x
          rw [he0]
          simp only [List.cons_append, if_neg hbr0]
          rw [← List.cons_append, ← he0]
          have harith : 1 + sizeJ x + sizeArr xs ≤ f := by
            simp only [sizeJ, sizeArr] at hs
            omega
          rw [ihQ x xs (lvl + 1) lvl rest harith]
          rfl
      | obj kvs =>
        cases kvs with
        | nil =>
          rw [show dumpsV lvl (Json.obj []) = [lbrace, rbrace] from rfl]
          simp only [List.cons_append, List.nil_append]
          rw [parseValue_succ_obj, skipWs_cons_not _ _ (by decide)]
          simp
        | cons kv kvs =>
          obtain ⟨k, v⟩ := kv
          rw [show dumpsV lvl (Json.obj ((k, v) :: kvs))
              = lbrace :: (nlIndent (lvl + 1) ++ dumpsKV (lvl + 1) (k, v)
                ++ dumpsObj (lvl + 1) kvs ++ nlIndent lvl ++ [rbrace]) from rfl]
          rw [show dumpsKV (lvl + 1) (k, v)
              = ('"' :: (escChars k.data ++ ['"'])) ++ ':' :: ' ' :: dumpsV (lvl + 1) v
              from rfl]
          simp only [List.cons_append, List.append_assoc, List.singleton_append,
            List.nil_append]
          rw [parseValue_succ_obj, skipWs_nlIndent, skipWs_cons_not _ _ (by rfl)]
          simp only [if_neg (show ¬('"' : Char) = rbrace by decide)]
          have harith : 1 + sizeJ v + sizeObj kvs ≤ f := by
            simp only [sizeJ, sizeObj] at hs
            omega
          rw [ihR k v kvs (lvl + 1) lvl rest harith]
          rfl
    · intro x xs lvl lvl2 rest hsz
      cases xs with
      | nil =>
        simp only [dumpsArr, List.nil_append]
        rw [parseItems_succ]
        have hT : numBoundary (nlIndent lvl2 ++ (']' :: rest)) = true := by
          simp only [nlIndent, List.cons_append]
          exact numBoundary_nl _
        have hfx : sizeJ x < f := by
          simp only [sizeArr] at hsz
          omega
        rw [ihP x lvl _ hfx hT]
        simp only [Option.some_bind]
        rw [skipWs_nlIndent, skipWs_cons_not _ _ (by rfl)]
        simp
      | cons y ys =>
        simp only [dumpsArr, List.cons_append, List.append_assoc]
        rw [parseItems_succ]
        have hfx : sizeJ x < f := by
          simp only [sizeArr] at hsz
          omega
        rw [ihP x lvl _ hfx (numBoundary_comma _)]
        simp only [Option.some_bind]
        rw [skipWs_cons_not _ _ (by rfl)]
        simp only [if_pos (show (',' : Char) = ',' from rfl)]
        rw [parseItems_ws f _ _ (skipWs_nlIndent _ _)]
        have harith : 1 + sizeJ y + sizeArr ys ≤ f := by
          simp only [sizeArr] at hsz
          have := sizeJ_pos x
          omega
        rw [ihQ y ys lvl lvl2 rest harith]
        rfl
    · intro k v kvs lvl lvl2 rest hsz
      rw [parseMembers_succ_quote, parseStr_round]
      simp only [Option.some_bind]
      rw [skipWs_cons_not _ _ (by rfl)]
      simp only [if_pos (show (':' : Char) = ':' from rfl)]
      have hfv : sizeJ v < f := by
        have := sizeObj_pos kvs
        omega
      cases kvs with
      | nil =>
        simp only [dumpsObj, List.nil_append]
        have hT : numBoundary (nlIndent lvl2 ++ (rbrace :: rest)) = true := by
          simp only [nlIndent, List.cons_append]
          exact numBoundary_nl _
        have hpv : parseValue f (' ' :: (dumpsV lvl v ++ (nlIndent lvl2 ++ (rbrace :: rest))))
            = some (v, nlIndent lvl2 ++ (rbrace :: rest)) := by
          rw [parseValue_ws f _ (dumpsV lvl v ++ (nlIndent lvl2 ++ (rbrace :: rest)))
            (skipWs_cons_ws _ _ (by rfl)), ihP v lvl _ hfv hT]
        rw [hpv]
        simp only [Option.some_bind]
        rw [skipWs_nlIndent, skipWs_cons_not _ _ (by decide)]
        simp [show ¬rbrace = ',' by decide]
      | cons kv2 kvs2 =>
        obtain ⟨k2, v2⟩ := kv2
        rw [show dumpsObj lvl ((k2, v2) :: kvs2)
            = ',' :: (nlIndent lvl ++ dumpsKV lvl (k2, v2) ++ dumpsObj lvl kvs2) from rfl]
        rw [show dumpsKV lvl (k2, v2)
            = ('"' :: (escChars k2.data ++ ['"'])) ++ ':' :: ' ' :: dumpsV lvl v2 from rfl]
        simp only [List.cons_append, List.append_assoc, List.singleton_append]
        have hws : ∀ T2 : List Char, parseValue f (' ' :: (dumpsV lvl v ++ T2))
            = parseValue f (dumpsV lvl v ++ T2) :=
          fun T2 => parseValue_ws f _ _ (skipWs_cons_ws _ _ (by rfl))
        rw [hws, ihP v lvl _ hfv (numBoundary_comma _)]
        simp only [Option.some_bind]
        rw [skipWs_cons_not _ _ (by rfl)]
        simp only [if_pos (show (',' : Char) = ',' from rfl)]
        rw [skipWs_nlIndent, skipWs_cons_not _ _ (by rfl)]
        have harith : 1 + sizeJ v2 + sizeObj kvs2 ≤ f := by
          simp only [sizeObj] at hsz
          have := sizeJ_pos v
          omega
        simp only [List.nil_append, if_true]
        rw [ihR k2 v2 kvs2 lvl lvl2 rest harith]
        rfl

mutual

/-- A value's size is at most the length of its serialization. -/
theorem sizeJ_le_dumpsV : ∀ (lvl : Nat) (j : Json), sizeJ j ≤ (dumpsV lvl j).length
  | _, .null => by simp [sizeJ, dumpsV]
  | _, .bool true => by simp [sizeJ, dumpsV]
  | _, .bool false => by simp [sizeJ, dumpsV]
  | _, .num n => by
    have h : intChars n ≠ [] := by
      rw [intChars]
      split
      · simp
      · exact natChars_ne_nil n.natAbs
    have := List.length_pos.mpr h
    simp only [sizeJ, dumpsV]
    omega
  | _, .str s => by simp [sizeJ, dumpsV, encStr]
  | _, .arr [] => by simp [sizeJ, sizeArr, dumpsV]
  | lvl, .arr (x :: xs) => by
    have h1 := sizeJ_le_dumpsV (lvl + 1) x
    have h2 := sizeArr_le_dumpsArr (lvl + 1) xs
    simp only [sizeJ, sizeArr, dumpsV, nlIndent, List.length_cons, List.length_append,
      List.length_replicate, List.length_singleton]
    omega
  | _, .obj [] => by simp [sizeJ, sizeObj, dumpsV]
  | lvl, .obj ((k, v) :: kvs) => by
    have h1 := sizeJ_le_dumpsV (lvl + 1) v
    have h2 := sizeObj_le_dumpsObj (lvl + 1) kvs
    simp only [sizeJ, sizeObj, dumpsV, dumpsKV, encStr, nlIndent, List.length_cons,
      List.length_append, List.length_replicate, List.length_singleton]
    omega

/-- An item list's size is at most one more than the length of its
serialized tail. -/
theorem sizeArr_le_dumpsArr : ∀ (lvl : Nat) (xs : List Json),
    sizeArr xs ≤ (dumpsArr lvl xs).length + 1
  | _, [] => by simp [sizeArr, dumpsArr]
  | lvl, x :: xs => by
    have h1 := sizeJ_le_dumpsV lvl x
    have h2 := sizeArr_le_dumpsArr lvl xs
    simp only [sizeArr, dumpsArr, nlIndent, List.length_cons, List.length_append,
      List.length_replicate]
    omega

/-- A member list's size is at most one more than the length of its
serialized tail. -/
theorem sizeObj_le_dumpsObj : ∀ (lvl : Nat) (kvs : List (String × Json)),
    sizeObj kvs ≤ (dumpsObj lvl kvs).length + 1
  | _, [] => by simp [sizeObj, dumpsObj]
  | lvl, (k, v) :: kvs => by
    have h1 := sizeJ_le_dumpsV lvl v
    have h2 := sizeObj_le_dumpsObj lvl kvs
    simp only [sizeObj, dumpsObj, dumpsKV, encStr, nlIndent, List.length_cons,
      List.length_append, List.length_replicate]
    omega

end

/-- Parsing the indented serialization of any value recovers it. -/
theorem loads_dumps (j : Json) : loads (dumps j) = some j := by
  have hsz : sizeJ j < (dumpsV 0 j).length + 1 := by
    have := sizeJ_le_dumpsV 0 j
    omega
  have h := (parse_dumps_aux ((dumpsV 0 j).length + 1)).1 j 0 [] hsz rfl
  rw [List.append_nil] at h
  show (parseValue ((dumpsV 0 j).length + 1) (dumpsV 0 j)).bind _ = some j
  rw [h]
  rfl

/-- Witness for the amended C1 at the provider-failure payload. -/
theorem provider_failure_stores_payload_witness :
    ∃ s2, on_success initState
        (Json.obj [("status", Json.str "fail"), ("message", Json.str "invalid query")])
        = Except.ok s2 ∧
      s2.last_json = some (Json.obj [("status", Json.str "fail"), ("message", Json.str "invalid query")]) ∧
      ([("status", Json.str "fail"), ("message", Json.str "invalid query")] ≠ ([] : List (String × Json)) →
        (copy_json s2).1 = CopyResult.copied
          (dumps (Json.obj [("status", Json.str "fail"), ("message", Json.str "invalid query")]))) :=
  provider_failure_stores_payload initState _ rfl

/-- C7: serializing a payload object with the indented-JSON routine used by
copy_json and parsing that text back yields an object equal to the original
payload. -/
theorem copy_json_round_trip (kvs : List (String × Json)) :
    loads (dumps (Json.obj kvs)) = some (Json.obj kvs) :=
  loads_dumps (Json.obj kvs)

end IpFinder
